import Mathlib

/-!
Shallow embedding of the async-streams-in-rust stock pipeline
(src/async-streaming-on-a-schedule, src/data-processing-with-actors,
src/connecting-actors-to-the-world).

Modelling conventions: f64 close prices are modelled as exact rationals,
DateTime values as integer unix timestamps, and the u64 quote timestamps
as naturals. Each actor message handler is modelled as a pure function
from its inputs to the list of messages it publishes, or to its updated
private state. The external yahoo provider call is passed in as data.
-/

namespace AsyncStreams

/-- Capacity of the retention buffer, the constant BUFFER_SIZE of
connecting-actors-to-the-world. -/
def BUFFER_SIZE : Nat := 50

/-- One point of the provider result: unix timestamp and close price
(the yahoo Quote record restricted to the fields the pipeline reads). -/
structure Quote where
  timestamp : Nat
  close : ℚ
deriving DecidableEq, Repr, Inhabited

/-- Message published by the downloader: a symbol together with its
possibly empty quote series. -/
structure Quotes where
  symbol : String
  quotes : List Quote
deriving DecidableEq, Repr, Inhabited

/-- Message published by the scheduler loop in main. The source names it
QuoteRequest; the spec calls it FetchRequest. The Rust fields from and to
are renamed from_ and to_ because from is a Lean keyword. -/
structure QuoteRequest where
  symbol : String
  from_ : Int
  to_ : Int
deriving DecidableEq, Repr, Inhabited

/-- Performance indicators of a stock data time series. -/
structure PerformanceIndicators where
  symbol : String
  timestamp : Int
  price : ℚ
  pct_change : ℚ
  period_min : ℚ
  period_max : ℚ
  last_sma : ℚ
deriving DecidableEq, Repr, Inhabited

namespace PriceDifference

/-- Method calculate of PriceDifference: the absolute and relative
difference between the beginning and the end of a series; the relative
difference divides by the first element, with the denominator replaced by
1 when the first element is zero. Returns none on an empty series. -/
def calculate : List ℚ → Option (ℚ × ℚ)
  | [] => none
  | a :: t =>
    let first := a
    let last := (a :: t).getLast (List.cons_ne_nil a t)
    let abs_diff := last - first
    let denom := if first = 0 then 1 else first
    some (abs_diff, abs_diff / denom)

end PriceDifference

/-- Rust slice::windows for window width at least 1: all contiguous
subslices of length w, in order; empty when the slice is shorter than w.
The source only calls it with w greater than 1. -/
def slidingWindows (w : Nat) : List ℚ → List (List ℚ)
  | [] => []
  | a :: t =>
    if w ≤ t.length + 1 then ((a :: t).take w) :: slidingWindows w t else []

namespace WindowedSMA

/-- Method calculate of WindowedSMA, with the window_size field passed
explicitly: some list of window means when the series is non-empty and
window_size exceeds 1, none otherwise. Each mean divides the window sum by
the window length, as the source does. -/
def calculate (window_size : Nat) (series : List ℚ) : Option (List ℚ) :=
  if ¬ series.isEmpty ∧ window_size > 1 then
    some ((slidingWindows window_size series).map (fun w => w.sum / (w.length : ℚ)))
  else
    none

end WindowedSMA

/-- The value taken for last_sma from an SMA list: the last element, or 0
when the list is empty, as in the source expression
sma.last().unwrap_or(0.0). -/
def lastSma (sma : List ℚ) : ℚ :=
  (sma.getLast?).getD 0

namespace MaxPrice

/-- Method calculate of MaxPrice: none on an empty series, otherwise a max
fold over the series. The source seeds the fold with f64::MIN, which lies
below every series value; over ℚ the seed is the head, which yields the
same result for every series of in-range values. -/
def calculate : List ℚ → Option ℚ
  | [] => none
  | a :: t => some (t.foldl max a)

end MaxPrice

namespace MinPrice

/-- Method calculate of MinPrice: none on an empty series, otherwise a min
fold over the series, seeded as in MaxPrice.calculate. -/
def calculate : List ℚ → Option ℚ
  | [] => none
  | a :: t => some (t.foldl min a)

end MinPrice

/-- Timestamp order used by sort_by_cached_key in the processor. -/
def tsLe (a b : Quote) : Prop := a.timestamp ≤ b.timestamp

instance : DecidableRel tsLe := fun a b => Nat.decLe a.timestamp b.timestamp

instance : IsTotal Quote tsLe := ⟨fun a b => Nat.le_total a.timestamp b.timestamp⟩

instance : IsTrans Quote tsLe := ⟨fun _ _ _ => Nat.le_trans⟩

/-- Stable sort of the quote series by timestamp ascending, modelling
sort_by_cached_key with key timestamp. -/
def sortQuotes (l : List Quote) : List Quote :=
  List.insertionSort tsLe l

namespace StockDataProcessor

/-- Handler of a Quotes message: the list of PerformanceIndicators
messages it publishes, which is empty for an empty series and a single
message otherwise. Option.getD stands in for unwrap and unwrap_or at the
call sites, where the unwrapped Option is provably some. -/
def handle (msg : Quotes) : List PerformanceIndicators :=
  if msg.quotes.isEmpty then []
  else
    let sorted := sortQuotes msg.quotes
    let last_date : Int := (((sorted.getLast?).getD default).timestamp : Int)
    let closes := sorted.map Quote.close
    let period_max := (MaxPrice.calculate closes).getD 0
    let period_min := (MinPrice.calculate closes).getD 0
    let last_price := (closes.getLast?).getD 0
    let pct_change := ((PriceDifference.calculate closes).getD (0, 0)).2
    let sma := (WindowedSMA.calculate 30 closes).getD []
    [{ symbol := msg.symbol, timestamp := last_date, price := last_price,
       pct_change := pct_change, period_min := period_min,
       period_max := period_max, last_sma := lastSma sma }]

end StockDataProcessor

namespace StockDataDownloader

/-- Handler of a QuoteRequest, with the outcome of the provider call
passed in as data: ok of ok is a successful download with its quote list,
ok of error is a response whose quotes extraction failed (malformed
result), error is a failed provider call. Returns the list of Quotes
messages it publishes. -/
def handle (symbol : String)
    (providerResult : Except String (Except String (List Quote))) : List Quotes :=
  match providerResult with
  | Except.ok (Except.ok qs) => [{ symbol := symbol, quotes := qs }]
  | Except.ok (Except.error _) => [{ symbol := symbol, quotes := [] }]
  | Except.error _ => [{ symbol := symbol, quotes := [] }]

end StockDataDownloader

namespace BufferSink

/-- Handler of a PerformanceIndicators message: push_front on the deque,
then truncate to BUFFER_SIZE. -/
def insert (buf : List PerformanceIndicators) (msg : PerformanceIndicators) :
    List PerformanceIndicators :=
  (msg :: buf).take BUFFER_SIZE

/-- Buffer contents after handling a sequence of messages (oldest first in
msgs), starting from the empty buffer. -/
def run (msgs : List PerformanceIndicators) : List PerformanceIndicators :=
  msgs.foldl insert []

/-- Handler of BufferDataRequest n: the first n entries of the deque. -/
def handleBufferDataRequest (buf : List PerformanceIndicators) (n : Nat) :
    List PerformanceIndicators :=
  buf.take n

end BufferSink

/-- Response classes of the tail endpoint. Modelled from the spec: the
conversion of a failed path-parameter parse into an HTTP response class
happens inside the tide library, outside this repository; the spec states
that a non-numeric parameter yields a client-error response. -/
inductive TailResponse where
  | ok (body : List PerformanceIndicators)
  | clientError
deriving DecidableEq, Repr

/-- Parse of the path parameter, modelling str::parse for usize: a
non-empty run of decimal digits after an optional leading plus sign (the
usize overflow bound is not modelled). Defined over the character list of
the string. -/
def parseUsize (s : String) : Option Nat :=
  let chars := match s.data with
    | '+' :: rest => rest
    | cs => cs
  if chars ≠ [] ∧ chars.all Char.isDigit then
    some (chars.foldl (fun acc c => acc * 10 + (c.toNat - 48)) 0)
  else
    none

namespace QueryService

/-- The tail route handler: parse n, on failure short-circuit with an
error response without calling the buffer actor; on success query the
buffer sink and return the first n entries. The Bool records whether the
BufferSink was queried. -/
def tail (nParam : String) (buf : List PerformanceIndicators) :
    TailResponse × Bool :=
  match parseUsize nParam with
  | none => (TailResponse.clientError, false)
  | some n => (TailResponse.ok (BufferSink.handleBufferDataRequest buf n), true)

end QueryService

/-- State of an open CSV writer: rows sitting in the BufWriter buffer and
rows already flushed to durable storage. Rows are identified with the
message they were formatted from. -/
structure FileWriter where
  buffered : List PerformanceIndicators
  durable : List PerformanceIndicators
deriving DecidableEq, Repr

/-- The writeln call: append one formatted row to the writer buffer. -/
def writeRow (w : FileWriter) (msg : PerformanceIndicators) : FileWriter :=
  { w with buffered := w.buffered ++ [msg] }

/-- The flush call: move every buffered row to durable storage. -/
def flushWriter (w : FileWriter) : FileWriter :=
  { buffered := [], durable := w.durable ++ w.buffered }

namespace FileSink

/-- Handler of PerformanceIndicators in data-processing-with-actors:
writeln one row, then flush, when the writer is open; no effect when it
is not. -/
def handleDataProcessing (w : Option FileWriter) (msg : PerformanceIndicators) :
    Option FileWriter :=
  match w with
  | none => none
  | some w => some (flushWriter (writeRow w msg))

/-- Handler of PerformanceIndicators in connecting-actors-to-the-world:
writeln one row when the writer is open, with no flush call in the
handler (the only flush is in the stopped hook). -/
def handleConnecting (w : Option FileWriter) (msg : PerformanceIndicators) :
    Option FileWriter :=
  match w with
  | none => none
  | some w => some (writeRow w msg)

end FileSink

/-- One scheduler tick: one QuoteRequest per tracked symbol, in order,
all carrying the given from and to instants. -/
def schedulerTick (symbols : List String) (from_ now : Int) : List QuoteRequest :=
  symbols.map (fun s => { symbol := s, from_ := from_, to_ := now })

/-- Scheduling loop of connecting-actors-to-the-world: now is read from
the clock inside the loop on every tick, so each tick uses the clock
value current at that tick. tickTimes lists the clock readings at the
successive ticks. -/
def schedulerRunConnecting (symbols : List String) (from_ : Int)
    (tickTimes : List Int) : List (List QuoteRequest) :=
  tickTimes.map (fun now => schedulerTick symbols from_ now)

/-- Scheduling loop of data-processing-with-actors: to is read from the
clock once, before the loop, so every tick reuses the startup clock value
and ignores the clock value current at the tick. -/
def schedulerRunDataProcessing (symbols : List String) (from_ startupTime : Int)
    (tickTimes : List Int) : List (List QuoteRequest) :=
  tickTimes.map (fun _ => schedulerTick symbols from_ startupTime)

/-- Concrete run of 51 pairwise distinct indicators for the C1 witness. -/
def c1msgs : List PerformanceIndicators :=
  (List.range 51).map (fun i => { symbol := "AAPL", timestamp := (i : Int), price := 0,
                                  pct_change := 0, period_min := 0, period_max := 0,
                                  last_sma := 0 })

/-- Example indicator used by the C10 counterexample. -/
def piExample : PerformanceIndicators :=
  { symbol := "AAPL", timestamp := 3, price := 9, pct_change := 0,
    period_min := 9, period_max := 12, last_sma := 0 }

/-- Taking n of an append absorbs an inner take n on the right part. -/
theorem take_append_take (n : Nat) (a b : List PerformanceIndicators) :
    (a ++ b.take n).take n = (a ++ b).take n := by
  rw [List.take_append_eq_append_take, List.take_append_eq_append_take, List.take_take]
  simp [Nat.min_def]

/-- Characterization of the buffer fold from any admissible start state. -/
theorem foldl_insert_eq (msgs : List PerformanceIndicators) :
    ∀ acc : List PerformanceIndicators, acc.length ≤ BUFFER_SIZE →
      List.foldl BufferSink.insert acc msgs = (msgs.reverse ++ acc).take BUFFER_SIZE := by
  induction msgs with
  | nil =>
    intro acc hacc
    simp [List.take_of_length_le hacc]
  | cons m rest ih =>
    intro acc hacc
    have hlen : ((m :: acc).take BUFFER_SIZE).length ≤ BUFFER_SIZE := by
      simp [List.length_take]
    calc List.foldl BufferSink.insert acc (m :: rest)
        = List.foldl BufferSink.insert ((m :: acc).take BUFFER_SIZE) rest := rfl
      _ = (rest.reverse ++ (m :: acc).take BUFFER_SIZE).take BUFFER_SIZE := ih _ hlen
      _ = (rest.reverse ++ (m :: acc)).take BUFFER_SIZE := take_append_take _ _ _
      _ = ((m :: rest).reverse ++ acc).take BUFFER_SIZE := by simp

/-- The buffer contents equal the reversed input truncated to capacity. -/
theorem bufferSink_run_eq (msgs : List PerformanceIndicators) :
    BufferSink.run msgs = (msgs.reverse).take BUFFER_SIZE := by
  simpa using foldl_insert_eq msgs [] (by simp [BUFFER_SIZE])

/-- Head of a take at positive count is the head of the list. -/
theorem head?_take_pos (n : Nat) (hn : 0 < n) (l : List PerformanceIndicators) :
    (l.take n).head? = l.head? := by
  cases l with
  | nil => simp
  | cons a t =>
    cases n with
    | zero => omega
    | succ k => simp

/-- C1: the retention buffer never holds more than 50 entries; after each
insertion the newest entry is at the front, and once 51 distinct
indicators have been inserted in order exactly the 50 most recent remain,
newest-first, with the oldest evicted. -/
theorem bufferSink_retention_C1 (msgs : List PerformanceIndicators) :
    BufferSink.run msgs = (msgs.reverse).take BUFFER_SIZE ∧
    (∀ k : Nat, (BufferSink.run (msgs.take k)).length ≤ BUFFER_SIZE) ∧
    (BufferSink.run msgs).head? = msgs.getLast? ∧
    (msgs.length = 51 → msgs.Nodup → BufferSink.run msgs = (msgs.drop 1).reverse) := by
  refine ⟨bufferSink_run_eq msgs, ?_, ?_, ?_⟩
  · intro k
    rw [bufferSink_run_eq]
    simp [List.length_take]
  · rw [bufferSink_run_eq, head?_take_pos BUFFER_SIZE (by simp [BUFFER_SIZE])]
    exact List.head?_reverse msgs
  · intro hlen _
    rw [bufferSink_run_eq]
    cases msgs with
    | nil => simp at hlen
    | cons a t =>
      have ht : t.length = 50 := by simpa using hlen
      have hrev : t.reverse.length = 50 := by simpa using ht
      rw [List.reverse_cons, List.take_append_eq_append_take, hrev]
      simp [BUFFER_SIZE, List.take_of_length_le (le_of_eq hrev)]

theorem bufferSink_retention_C1_witness :
    c1msgs.length = 51 ∧ c1msgs.Nodup ∧
    BufferSink.run c1msgs = (c1msgs.drop 1).reverse :=
  ⟨by decide, by decide,
   (bufferSink_retention_C1 c1msgs).2.2.2 (by decide) (by decide)⟩

/-- C2: the processor publishes exactly one PerformanceIndicators message
for a Quotes message with a non-empty point sequence, and none for an
empty one. -/
theorem processor_emits_C2 (msg : Quotes) :
    (msg.quotes ≠ [] → (StockDataProcessor.handle msg).length = 1) ∧
    (msg.quotes = [] → StockDataProcessor.handle msg = []) := by
  constructor
  · intro h
    simp [StockDataProcessor.handle, h]
  · intro h
    simp [StockDataProcessor.handle, h]

theorem processor_emits_C2_witness :
    (StockDataProcessor.handle { symbol := "AAPL", quotes := [⟨1, 10⟩] }).length = 1 ∧
    StockDataProcessor.handle { symbol := "AAPL", quotes := [] } = [] :=
  ⟨(processor_emits_C2 { symbol := "AAPL", quotes := [⟨1, 10⟩] }).1 (by decide),
   (processor_emits_C2 { symbol := "AAPL", quotes := [] }).2 rfl⟩

/-- C4: the price difference of a non-empty series is the pair of the
absolute difference last minus first and the relative difference dividing
by first, with denominator 1 when first is zero; on the series
0, 3, 5, 6, 1, 2, 1 it yields 1 and 1. -/
theorem priceDifference_C4 :
    (∀ (s : List ℚ) (f l : ℚ), s.head? = some f → s.getLast? = some l →
      PriceDifference.calculate s =
        some (l - f, (l - f) / (if f = 0 then 1 else f))) ∧
    PriceDifference.calculate [0, 3, 5, 6, 1, 2, 1] = some (1, 1) := by
  constructor
  · intro s f l hf hl
    cases s with
    | nil => simp at hf
    | cons a t =>
      rw [List.getLast?_eq_getLast _ (List.cons_ne_nil a t)] at hl
      simp only [List.head?_cons, Option.some.injEq] at hf hl
      subst hf
      subst hl
      rfl
  · norm_num [PriceDifference.calculate, List.getLast]

theorem priceDifference_C4_witness :
    ([1, 3] : List ℚ).head? = some 1 ∧ ([1, 3] : List ℚ).getLast? = some 3 ∧
    PriceDifference.calculate [1, 3] =
      some (3 - 1, (3 - 1) / (if (1 : ℚ) = 0 then 1 else 1)) :=
  ⟨rfl, rfl, priceDifference_C4.1 [1, 3] 1 3 rfl rfl⟩

/-- C5: a BufferDataRequest for n entries returns the first n entries of
the deque, newest-first, of length min n buffered count; n equal to 0
returns the empty list whatever the buffer holds. -/
theorem tailQuery_C5 (buf : List PerformanceIndicators) (n : Nat) :
    (BufferSink.handleBufferDataRequest buf n).length = min n buf.length ∧
    BufferSink.handleBufferDataRequest buf n = buf.take n ∧
    BufferSink.handleBufferDataRequest buf 0 = [] ∧
    (∀ msgs : List PerformanceIndicators,
      BufferSink.handleBufferDataRequest (BufferSink.run msgs) n =
        (msgs.reverse).take (min n BUFFER_SIZE)) ∧
    (∀ s : String, parseUsize s = some n →
      QueryService.tail s buf = (TailResponse.ok (buf.take n), true)) := by
  refine ⟨List.length_take n buf, rfl, rfl, ?_, ?_⟩
  · intro msgs
    rw [BufferSink.handleBufferDataRequest, bufferSink_run_eq, List.take_take]
  · intro s hs
    simp [QueryService.tail, hs, BufferSink.handleBufferDataRequest]

theorem tailQuery_C5_witness :
    parseUsize "0" = some 0 ∧
    QueryService.tail "0"
        [{ symbol := "A", timestamp := 0, price := 1, pct_change := 0,
           period_min := 0, period_max := 0, last_sma := 0 }] =
      (TailResponse.ok [], true) :=
  ⟨by decide,
   (tailQuery_C5
      [{ symbol := "A", timestamp := 0, price := 1, pct_change := 0,
         period_min := 0, period_max := 0, last_sma := 0 }] 0).2.2.2.2 "0"
     (by decide)⟩

/-- C6: a path parameter that does not parse as a non-negative integer
short-circuits the tail handler into the error response without the
buffer sink being queried. -/
theorem tail_malformed_C6 (s : String) (buf : List PerformanceIndicators)
    (h : parseUsize s = none) :
    QueryService.tail s buf = (TailResponse.clientError, false) := by
  simp [QueryService.tail, h]

theorem tail_malformed_C6_witness :
    parseUsize "abc" = none ∧
    QueryService.tail "abc" [] = (TailResponse.clientError, false) :=
  ⟨by decide, tail_malformed_C6 "abc" [] (by decide)⟩

/-- C7: the downloader handler always publishes exactly one Quotes
message, and on a failed provider call or a malformed provider result
that message carries the request symbol and an empty point sequence; the
handler has no failure outcome. -/
theorem downloader_error_isolation_C7 (symbol : String)
    (r : Except String (Except String (List Quote))) :
    (StockDataDownloader.handle symbol r).length = 1 ∧
    ((∃ e, r = Except.error e) ∨ (∃ e, r = Except.ok (Except.error e)) →
      StockDataDownloader.handle symbol r = [{ symbol := symbol, quotes := [] }]) := by
  constructor
  · rcases r with e | q
    · rfl
    · rcases q with e | qs <;> rfl
  · rintro (⟨e, rfl⟩ | ⟨e, rfl⟩) <;> rfl

theorem downloader_error_isolation_C7_witness :
    StockDataDownloader.handle "AAPL" (Except.error "timeout") =
      [{ symbol := "AAPL", quotes := [] }] :=
  (downloader_error_isolation_C7 "AAPL" (Except.error "timeout")).2
    (Or.inl ⟨"timeout", rfl⟩)

/-- C9 counterexample: in data-processing-with-actors, with startup clock
0 and a tick at clock 5, the published request carries to equal to 0, the
startup time, not 5, the current time at that tick. -/
theorem scheduler_C9_counterexample :
    schedulerRunDataProcessing ["AAPL"] 0 0 [5] =
      [[{ symbol := "AAPL", from_ := 0, to_ := 0 }]] ∧
    ({ symbol := "AAPL", from_ := 0, to_ := 0 } : QuoteRequest).to_ ≠ (5 : Int) :=
  ⟨rfl, by decide⟩

/-- C9 (amended): every tick publishes exactly one request per tracked
symbol, in order, all carrying the fixed from; in
connecting-actors-to-the-world the to field is the clock value current at
that tick, while in data-processing-with-actors every tick reuses the
clock value read once at startup. -/
theorem scheduler_per_tick_C9 (symbols : List String) (from_ startupTime now : Int)
    (tickTimes : List Int) :
    (schedulerTick symbols from_ now).map QuoteRequest.symbol = symbols ∧
    (∀ r ∈ schedulerTick symbols from_ now, r.from_ = from_ ∧ r.to_ = now) ∧
    schedulerRunConnecting symbols from_ tickTimes =
      tickTimes.map (schedulerTick symbols from_) ∧
    (∀ batch ∈ schedulerRunDataProcessing symbols from_ startupTime tickTimes,
      batch = schedulerTick symbols from_ startupTime) := by
  refine ⟨?_, ?_, rfl, ?_⟩
  · simp [schedulerTick, Function.comp_def]
  · intro r hr
    simp only [schedulerTick, List.mem_map] at hr
    obtain ⟨s, _, rfl⟩ := hr
    exact ⟨rfl, rfl⟩
  · intro batch hb
    simp only [schedulerRunDataProcessing, List.mem_map] at hb
    obtain ⟨t, _, rfl⟩ := hb
    rfl

theorem scheduler_per_tick_C9_witness :
    (schedulerTick ["AAPL"] 0 5).map QuoteRequest.symbol = ["AAPL"] ∧
    ({ symbol := "AAPL", from_ := 0, to_ := 5 } : QuoteRequest).from_ = 0 ∧
    ({ symbol := "AAPL", from_ := 0, to_ := 5 } : QuoteRequest).to_ = 5 :=
  ⟨(scheduler_per_tick_C9 ["AAPL"] 0 7 5 []).1,
   ((scheduler_per_tick_C9 ["AAPL"] 0 7 5 []).2.1 _ (by decide)).1,
   ((scheduler_per_tick_C9 ["AAPL"] 0 7 5 []).2.1 _ (by decide)).2⟩

/-- C10 counterexample: in connecting-actors-to-the-world, handling a
message on a freshly opened writer leaves the formatted row in the writer
buffer and nothing durable: the handler does not flush. -/
theorem fileSink_C10_counterexample :
    FileSink.handleConnecting (some { buffered := [], durable := [] }) piExample =
      some { buffered := [piExample], durable := [] } ∧
    ({ buffered := [piExample], durable := [] } : FileWriter).durable ≠ [piExample] :=
  ⟨rfl, by decide⟩

/-- Everything the data-processing-with-actors file sink handles from an
empty writer buffer ends up durable, in order. -/
theorem foldl_handleDataProcessing (msgs : List PerformanceIndicators) :
    ∀ d : List PerformanceIndicators,
      List.foldl FileSink.handleDataProcessing (some { buffered := [], durable := d }) msgs =
        some { buffered := [], durable := d ++ msgs } := by
  induction msgs with
  | nil => intro d; simp
  | cons m rest ih =>
    intro d
    have h1 : FileSink.handleDataProcessing (some { buffered := [], durable := d }) m =
        some { buffered := [], durable := d ++ [m] } := by
      simp [FileSink.handleDataProcessing, writeRow, flushWriter]
    rw [List.foldl_cons, h1, ih (d ++ [m])]
    simp

/-- C10 (amended): while the writer is open, each handled message appends
exactly one formatted row; the data-processing-with-actors handler then
flushes as part of handling, so every row is durable before the next
message, while the connecting-actors-to-the-world handler leaves the row
in the writer buffer and flushes only on stop. With the writer closed
both handlers do nothing. -/
theorem fileSink_append_C10 (w : FileWriter) (msg : PerformanceIndicators) :
    FileSink.handleDataProcessing (some w) msg =
      some { buffered := [], durable := w.durable ++ w.buffered ++ [msg] } ∧
    FileSink.handleConnecting (some w) msg =
      some { buffered := w.buffered ++ [msg], durable := w.durable } ∧
    FileSink.handleDataProcessing none msg = none ∧
    FileSink.handleConnecting none msg = none ∧
    (∀ msgs d, List.foldl FileSink.handleDataProcessing
        (some { buffered := [], durable := d }) msgs =
      some { buffered := [], durable := d ++ msgs }) := by
  refine ⟨?_, rfl, rfl, rfl, fun msgs d => foldl_handleDataProcessing msgs d⟩
  simp [FileSink.handleDataProcessing, writeRow, flushWriter]

/-- Number of windows: one per start position that fits. -/
theorem length_slidingWindows (w : Nat) (hw : 1 ≤ w) :
    ∀ l : List ℚ, (slidingWindows w l).length = l.length + 1 - w := by
  intro l
  induction l with
  | nil => simp [slidingWindows]; omega
  | cons a t ih =>
    simp only [slidingWindows]
    by_cases h : w ≤ t.length + 1
    · rw [if_pos h]
      simp only [List.length_cons, ih]
      omega
    · rw [if_neg h]
      simp only [List.length_cons, List.length_nil]
      omega

/-- Unfolding of slidingWindows on a cons that still fits a window. -/
theorem slidingWindows_cons_of_le (w : Nat) (a : ℚ) (t : List ℚ)
    (h : w ≤ t.length + 1) :
    slidingWindows w (a :: t) = ((a :: t).take w) :: slidingWindows w t := by
  simp [slidingWindows, h]

/-- Window i is the length-w slice starting at position i. -/
theorem getElem?_slidingWindows (w : Nat) :
    ∀ (l : List ℚ) (i : Nat), i < (slidingWindows w l).length →
      (slidingWindows w l)[i]? = some ((l.drop i).take w) := by
  intro l
  induction l with
  | nil => intro i hi; simp [slidingWindows] at hi
  | cons a t ih =>
    intro i hi
    by_cases h : w ≤ t.length + 1
    · rw [slidingWindows_cons_of_le w a t h] at hi ⊢
      cases i with
      | zero => simp
      | succ j =>
        rw [List.getElem?_cons_succ]
        rw [ih j (by simpa using hi)]
        simp
    · rw [slidingWindows] at hi
      rw [if_neg h] at hi
      simp at hi

/-- C3 counterexample: with window size 1 on a singleton series, and with
window size 2 on the empty series, calculate returns none, not an empty
sequence. -/
theorem windowedSMA_C3_counterexample :
    WindowedSMA.calculate 1 [1] = none ∧
    WindowedSMA.calculate 2 [] = none ∧
    WindowedSMA.calculate 1 [1] ≠ some [] ∧
    WindowedSMA.calculate 2 [] ≠ some [] := by
  refine ⟨rfl, rfl, ?_, ?_⟩ <;> simp [WindowedSMA.calculate]

/-- C3 (amended): calculate returns none when the series is empty or the
window size is at most 1; otherwise it returns some sequence, which is
empty when the series is shorter than the window (lastSma then defaults
to 0) and otherwise holds exactly length - w + 1 values, each the mean of
the w consecutive closes starting at its position, with lastSma equal to
its final value. -/
theorem windowedSMA_C3 (w : Nat) (series : List ℚ) :
    ((series = [] ∨ w ≤ 1) → WindowedSMA.calculate w series = none) ∧
    (series ≠ [] → 1 < w →
      ∃ out, WindowedSMA.calculate w series = some out ∧
        (series.length < w → out = [] ∧ lastSma out = 0) ∧
        (w ≤ series.length →
          out.length = series.length - w + 1 ∧
          (∀ i, (hi : i < out.length) →
            out[i] = ((series.drop i).take w).sum / (w : ℚ)) ∧
          out.getLast? = some (lastSma out))) := by
  constructor
  · intro h
    have hc : ¬ (¬ series.isEmpty ∧ w > 1) := by
      rcases h with rfl | hw
      · simp
      · rintro ⟨-, h2⟩; omega
    simp only [WindowedSMA.calculate]
    rw [if_neg hc]
  · intro hne hw
    have hcond : ¬ series.isEmpty = true ∧ w > 1 := by
      constructor
      · simpa [List.isEmpty_iff] using hne
      · exact hw
    refine ⟨(slidingWindows w series).map (fun win => win.sum / (win.length : ℚ)),
      ?_, ?_, ?_⟩
    · simp only [WindowedSMA.calculate]
      rw [if_pos hcond]
    · intro hlt
      have h0 : (slidingWindows w series).length = 0 := by
        rw [length_slidingWindows w (by omega)]; omega
      have hnil : slidingWindows w series = [] := List.eq_nil_of_length_eq_zero h0
      simp [hnil, lastSma]
    · intro hle
      have hlen : ((slidingWindows w series).map
          (fun win => win.sum / (win.length : ℚ))).length = series.length - w + 1 := by
        rw [List.length_map, length_slidingWindows w (by omega)]; omega
      refine ⟨hlen, ?_, ?_⟩
      · intro i hi
        rw [List.length_map] at hi
        have hq := getElem?_slidingWindows w series i hi
        have hwin : ((series.drop i).take w).length = w := by
          rw [List.length_take, List.length_drop]
          have h2 := hi
          rw [length_slidingWindows w (by omega)] at h2
          omega
        have hmap : ((slidingWindows w series).map
            (fun win => win.sum / (win.length : ℚ)))[i] =
            (fun win => win.sum / (win.length : ℚ)) ((slidingWindows w series)[i]) :=
          List.getElem_map _
        rw [hmap, List.getElem_eq_iff.mpr hq]
        simp only [hwin]
      · have hne2 : ((slidingWindows w series).map
            (fun win => win.sum / (win.length : ℚ))) ≠ [] := by
          refine List.length_pos.mp ?_
          rw [hlen]
          omega
        simp [lastSma, List.getLast?_eq_getLast _ hne2]

theorem windowedSMA_C3_witness :
    ([2, 9/2, 53/10, 13/2, 47/10] : List ℚ) ≠ [] ∧ (1 : Nat) < 3 ∧
    (∃ out, WindowedSMA.calculate 3 [2, 9/2, 53/10, 13/2, 47/10] = some out ∧
      (([2, 9/2, 53/10, 13/2, 47/10] : List ℚ).length < 3 → out = [] ∧ lastSma out = 0) ∧
      (3 ≤ ([2, 9/2, 53/10, 13/2, 47/10] : List ℚ).length →
        out.length = ([2, 9/2, 53/10, 13/2, 47/10] : List ℚ).length - 3 + 1 ∧
        (∀ i, (hi : i < out.length) →
          out[i] = ((([2, 9/2, 53/10, 13/2, 47/10] : List ℚ).drop i).take 3).sum / ((3 : Nat) : ℚ)) ∧
        out.getLast? = some (lastSma out))) :=
  ⟨by simp, by omega,
   (windowedSMA_C3 3 [2, 9/2, 53/10, 13/2, 47/10]).2 (by simp) (by omega)⟩

/-- C8: the processor sorts the incoming points by timestamp ascending (a
permutation of the input, sorted) before computing; on the unsorted
points (t2, 12), (t1, 10), (t3, 9) with t1 < t2 < t3 it publishes the
single record with price 9, pct_change -1/10, period_min 9,
period_max 12 and last_sma 0. -/
theorem processor_sorts_C8 :
    (∀ msg : Quotes, (sortQuotes msg.quotes).Perm msg.quotes ∧
      List.Sorted tsLe (sortQuotes msg.quotes)) ∧
    (∀ t1 t2 t3 : Nat, t1 < t2 → t2 < t3 →
      StockDataProcessor.handle
          { symbol := "AAPL", quotes := [⟨t2, 12⟩, ⟨t1, 10⟩, ⟨t3, 9⟩] } =
        [{ symbol := "AAPL", timestamp := (t3 : Int), price := 9,
           pct_change := -1/10, period_min := 9, period_max := 12,
           last_sma := 0 }]) := by
  constructor
  · intro msg
    exact ⟨List.perm_insertionSort tsLe msg.quotes,
      List.sorted_insertionSort tsLe msg.quotes⟩
  · intro t1 t2 t3 h12 h23
    have a1 : t1 ≤ t3 := by omega
    have a2 : ¬ (t2 ≤ t1) := by omega
    have a3 : t2 ≤ t3 := by omega
    have hsort : sortQuotes [⟨t2, 12⟩, ⟨t1, 10⟩, ⟨t3, 9⟩] =
        [⟨t1, 10⟩, ⟨t2, 12⟩, ⟨t3, 9⟩] := by
      simp [sortQuotes, List.insertionSort, List.orderedInsert, tsLe, a1, a2, a3]
    simp only [StockDataProcessor.handle, hsort]
    norm_num [MaxPrice.calculate, MinPrice.calculate, PriceDifference.calculate,
      WindowedSMA.calculate, slidingWindows, lastSma, List.getLast]

theorem processor_sorts_C8_witness :
    (1 : Nat) < 2 ∧ (2 : Nat) < 3 ∧
    StockDataProcessor.handle
        { symbol := "AAPL", quotes := [⟨2, 12⟩, ⟨1, 10⟩, ⟨3, 9⟩] } =
      [{ symbol := "AAPL", timestamp := (3 : Int), price := 9,
         pct_change := -1/10, period_min := 9, period_max := 12,
         last_sma := 0 }] :=
  ⟨by omega, by omega, processor_sorts_C8.2 1 2 3 (by omega) (by omega)⟩

end AsyncStreams
